import Mathlib

/-!
Verification development for a two-variant comic/novel scraping pipeline
and its JSON validator.

The repository holds three scripts:
* a "scrape" variant (`scrape-novel.js`): walks `ul.volume-chapters`
  volumes, skips chapters whose JSON file already exists, extracts
  `#acontent` child nodes into a token list (`extractAContent`), captures
  images by element screenshot, and writes
  `{ chapterTitle, contents: [[...], ...] }` records;
* a "fetch" variant (`fetch_novel_playwright_catalog.js`): walks
  `div.catalog-volume` volumes, extracts the child nodes of each `p`
  under `#acontent` through a text buffer, downloads images by in-page
  `fetch` falling back to `context.request.get`, and writes
  `{ title, lines: [...] }` records;
* a validator (`checkJsons.js`): `validateJson` checks the
  `{ chapterTitle, contents }` record shape and returns itemized error
  messages.

The definitions below are shallow embeddings of those functions.  Browser
interaction (navigation success, element visibility, screenshot success,
fetch success, `Date.now()`) is passed in as explicit parameters; string
and URL manipulation is reimplemented faithfully for the well-formed
absolute and root-relative URLs the scripts handle (no dot-segment
normalization, which none of the digit-extraction logic inspects).
-/

namespace Comics

/-! ### JavaScript string primitives -/

/-- Model of JavaScript `String.prototype.trim()` (ASCII whitespace). -/
def jsTrim (s : String) : String :=
  ⟨((s.data.dropWhile Char.isWhitespace).reverse.dropWhile Char.isWhitespace).reverse⟩

/-- Accumulator-based scan collecting maximal runs of digits.
`cur` holds the current run, reversed. -/
def digitGroupsAux : List Char → List Char → List String
  | [], cur => if cur.isEmpty then [] else [⟨cur.reverse⟩]
  | c :: cs, cur =>
    if c.isDigit then digitGroupsAux cs (c :: cur)
    else if cur.isEmpty then digitGroupsAux cs []
    else ⟨cur.reverse⟩ :: digitGroupsAux cs []

/-- Model of JavaScript `str.match(/\d+/g)` (with `null` rendered as `[]`):
the list of maximal digit runs of `s`, in order. -/
def digitGroups (s : String) : List String :=
  digitGroupsAux s.data []

/-- Split a character list at the first occurrence of `"://"`, returning
the parts before and after it. -/
def schemeSplit : List Char → Option (List Char × List Char)
  | [] => none
  | ':' :: '/' :: '/' :: rest => some ([], rest)
  | c :: rest =>
    match schemeSplit rest with
    | some (pre, post) => some (c :: pre, post)
    | none => none

/-- The characters after the first `"://"`, when present. -/
def afterScheme (cs : List Char) : Option (List Char) :=
  (schemeSplit cs).map (·.2)

/-- Drop a query string / fragment. -/
def stripQueryFrag (p : List Char) : List Char :=
  p.takeWhile (fun c => c != '?' && c != '#')

/-- Given the characters after `"://"` (host followed by an optional
path), the URL's pathname: everything from the first `/` on, with query
and fragment removed; `"/"` when the URL has no path. -/
def pathnameOfRest (rest : List Char) : List Char :=
  let p := (stripQueryFrag rest).dropWhile (fun c => c != '/')
  if p.isEmpty then ['/'] else p

/-- Model of `new URL(src).pathname` for absolute URLs; `none` models the
constructor throwing on a string with no scheme. -/
def urlPathname (src : String) : Option String :=
  match afterScheme src.data with
  | some rest => some ⟨pathnameOfRest rest⟩
  | none => none

/-- Model of `new URL(src, "http://example.com").pathname`: absolute URLs
keep their own path, other strings resolve against the bare origin. -/
def urlPathnameWithBase (src : String) : String :=
  match afterScheme src.data with
  | some rest => ⟨pathnameOfRest rest⟩
  | none =>
    let p := stripQueryFrag src.data
    if p.head? = some '/' then ⟨p⟩ else ⟨'/' :: p⟩

/-- Model of JavaScript `str.split("/")`; `cur` holds the current piece,
reversed. -/
def splitOnSlashAux : List Char → List Char → List String
  | [], cur => [⟨cur.reverse⟩]
  | '/' :: rest, cur => ⟨cur.reverse⟩ :: splitOnSlashAux rest []
  | c :: rest, cur => splitOnSlashAux rest (c :: cur)

/-- `pathname.split("/").filter(Boolean)` and then the last part, falling
back to the whole pathname when no part remains (scrape variant,
`extractImageIdFromSrc`). -/
def lastSegment (pathname : String) : String :=
  let parts := (splitOnSlashAux pathname.data []).filter (fun s => s != "")
  parts.getLast?.getD pathname

/-- Scrape variant `extractImageIdFromSrc(src)`: the LAST digit group of
the last path segment of `src` resolved against the base origin, `none`
("null") when `src` is empty or the segment has no digits. -/
def extractImageIdFromSrc (src : String) : Option String :=
  if src = "" then none
  else (digitGroups (lastSegment (urlPathnameWithBase src))).getLast?

/-- Scrape variant, `extractAContent` line
`const imageId = extractImageIdFromSrc(src) || String(Date.now());`
with `Date.now()` passed in as `now`. -/
def imageIdOf (src : String) (now : Nat) : String :=
  (extractImageIdFromSrc src).getD (Nat.repr now)

/-- `path.basename(u.pathname)` as used on URL pathnames: the last
non-empty `/`-separated part, `""` when there is none. -/
def basenameOf (p : String) : String :=
  ((splitOnSlashAux p.data []).filter (fun s => s != "")).getLast?.getD ""

/-- `base.slice(base.lastIndexOf(".")).toLowerCase()` when a dot exists. -/
def extOfBasename (base : String) : Option String :=
  if base.data.contains '.' then
    some ⟨('.' :: (base.data.reverse.takeWhile (fun c => c != '.')).reverse).map Char.toLower⟩
  else none

/-- Fetch variant `getExtFromUrl(url)`: the lowercased extension of the
URL's basename, `".jpg"` when the URL does not parse or has no dot. -/
def getExtFromUrl (url : String) : String :=
  match urlPathname url with
  | some p =>
    match extOfBasename (basenameOf p) with
    | some ext => ext
    | none => ".jpg"
  | none => ".jpg"

/-- Fetch variant `imageFilenameFromSrc(src)`: ALL digit groups of the
whole pathname joined, with the extension appended; a `Date.now()`-based
name (`now`) when there are no digits or the URL does not parse. -/
def imageFilenameFromSrc (src : String) (now : Nat) : String :=
  match urlPathname src with
  | some p =>
    let digits := digitGroups p
    (if digits.isEmpty then Nat.repr now else String.join digits) ++ getExtFromUrl src
  | none => Nat.repr now ++ getExtFromUrl src

/-- Origin (scheme plus host) of an absolute URL, used for resolving
root-relative references. -/
def originOf (url : String) : String :=
  match schemeSplit url.data with
  | some (scheme, rest) => ⟨scheme ++ (':' :: '/' :: '/' :: rest.takeWhile (fun c => c != '/'))⟩
  | none => url

/-- Model of `new URL(src, base).toString()` for the cases the scripts
hit: absolute `src` passes through, otherwise it is glued onto the base's
origin. -/
def resolveUrl (base src : String) : String :=
  if (afterScheme src.data).isSome then src
  else if src.data.head? = some '/' then originOf base ++ src
  else originOf base ++ "/" ++ src

/-! ### JSON values and the validator (`checkJsons.js`) -/

/-- Parsed JSON values. `obj` fields are unique-keyed, as produced by
`JSON.parse`. -/
inductive Json where
  | null
  | bool (b : Bool)
  | num (n : Int)
  | str (s : String)
  | arr (elems : List Json)
  | obj (fields : List (String × Json))

/-- `Object.prototype.hasOwnProperty` + property access on a parsed
object. -/
def jsonGet (fields : List (String × Json)) (key : String) : Option Json :=
  match fields with
  | [] => none
  | (k, v) :: rest => if k = key then some v else jsonGet rest key

/-- `validateJson`, `chapterTitle` checks. -/
def titleErrs : Option Json → List String
  | none => ["missing \"chapterTitle\" property"]
  | some (.str s) => if jsTrim s = "" then ["\"chapterTitle\" is empty"] else []
  | some _ => ["\"chapterTitle\" is not a string"]

/-- `validateJson`, the `contents.forEach((sub, i) => ...)` element
checks, `i` starting at the given index. -/
def contentErrsFrom (i : Nat) : List Json → List String
  | [] => []
  | .arr [] :: rest =>
    ("contents[" ++ Nat.repr i ++ "] is an empty array") :: contentErrsFrom (i + 1) rest
  | .arr (_ :: _) :: rest => contentErrsFrom (i + 1) rest
  | _ :: rest => ("contents[" ++ Nat.repr i ++ "] is not an array") :: contentErrsFrom (i + 1) rest

/-- `validateJson`, `contents` checks. -/
def contentsErrs : Option Json → List String
  | none => ["missing \"contents\" property"]
  | some (.arr []) => ["\"contents\" is an empty array"]
  | some (.arr (x :: xs)) => contentErrsFrom 0 (x :: xs)
  | some _ => ["\"contents\" is not an array"]

/-- `validateJson(obj)` from `checkJsons.js`: the itemized list of error
messages, empty exactly for conforming records. -/
def validateJson : Json → List String
  | .obj fields => titleErrs (jsonGet fields "chapterTitle") ++ contentsErrs (jsonGet fields "contents")
  | _ => ["root is not an object"]

/-- A JSON value that is a non-empty array. -/
def isNonemptyArray : Json → Bool
  | .arr (_ :: _) => true
  | _ => false

/-- `chapterTitle` present, a string, non-empty after trimming. -/
def titleOk : Option Json → Bool
  | some (.str s) => if jsTrim s = "" then false else true
  | _ => false

/-- `contents` present, a non-empty array of non-empty arrays. -/
def contentsOk : Option Json → Bool
  | some (.arr (x :: xs)) => (x :: xs).all isNonemptyArray
  | _ => false

/-- The validation contract stated in the validator's doc comment: root
is an object, `chapterTitle` is a non-empty trimmed string, `contents` is
a non-empty array of non-empty arrays. -/
def satisfiesContract : Json → Bool
  | .obj fields => titleOk (jsonGet fields "chapterTitle") && contentsOk (jsonGet fields "contents")
  | _ => false

/-! ### Image capture strategies -/

/-- The three capture strategies the specification describes. -/
inductive Strategy where
  | snapshot
  | pageFetch
  | ctxRequest
deriving DecidableEq

/-- Scrape variant image capture (`extractAContent`, screenshot block):
skipped when the file already exists or no valid bounding rect was
observed, otherwise a single `elem.screenshot` attempt whose success is
`shotOk`.  Returns the attempted strategies and whether a file was
written. -/
def scrapeImageCapture (fileAlready rectValid shotOk : Bool) : List Strategy × Bool :=
  if fileAlready then ([], false)
  else if rectValid then ([Strategy.snapshot], shotOk)
  else ([], false)

/-- Fetch variant image download: `downloadImageViaPageFetch` first,
`downloadImageViaContextRequest` only when the first throws.  Each
parameter is the buffer that strategy would produce (`none` models a
throw or timeout).  Returns the attempted strategies in order and the
downloaded buffer. -/
def fetchImageDownload (pageFetchRes ctxRes : Option Nat) : List Strategy × Option Nat :=
  match pageFetchRes with
  | some b => ([Strategy.pageFetch], some b)
  | none =>
    match ctxRes with
    | some b => ([Strategy.pageFetch, Strategy.ctxRequest], some b)
    | none => ([Strategy.pageFetch, Strategy.ctxRequest], none)

/-! ### Scrape variant content token classifier (`extractAContent`) -/

/-- A child node of `#acontent` as the scrape variant observes it:
`text` is a DOM text node (`asElement()` returns null), `elem` an element
with its lowercased tag name, computed visibility and `textContent`, and
`img` an image element together with the environment facts the capture
code consults (resolved `src`, whether `<imageId>.png` already exists,
whether a positive stable bounding rect was observed, whether the
screenshot call succeeds). -/
inductive SNode where
  | text (textContent : String)
  | elem (tag : String) (hidden : Bool) (textContent : String)
  | img (src : String) (hidden : Bool) (fileAlready rectValid shotOk : Bool)

/-- One iteration of the `extractAContent` node loop.  The accumulator is
(result tokens, picture files written). -/
def extractAContentStep (now : Nat) (acc : List String × List String) (n : SNode) :
    List String × List String :=
  match n with
  | .text s => if jsTrim s = "" then acc else (acc.1 ++ [jsTrim s], acc.2)
  | .elem tag hidden tc =>
    if hidden then acc
    else if tag = "p" then (if jsTrim tc = "" then acc else (acc.1 ++ [jsTrim tc], acc.2))
    else if tag = "br" then (acc.1 ++ [""], acc.2)
    else if tag = "center" then (acc.1 ++ ["((" ++ jsTrim tc ++ "))"], acc.2)
    else acc
  | .img src hidden fileAlready rectValid shotOk =>
    if hidden then acc
    else
      let id := imageIdOf src now
      let files := if (scrapeImageCapture fileAlready rectValid shotOk).2
        then acc.2 ++ [id ++ ".png"] else acc.2
      (acc.1 ++ ["(((" ++ id ++ ")))"], files)

/-- `extractAContent(page, picturesDir)`: `none` models a page where
`$("#acontent")` finds nothing (early `return result` with `result`
empty); otherwise the container's child nodes are classified in document
order.  Returns (tokens, picture files written). -/
def extractAContent (container : Option (List SNode)) (now : Nat) :
    List String × List String :=
  match container with
  | none => ([], [])
  | some children => children.foldl (extractAContentStep now) ([], [])

/-! ### Fetch variant content token classifier (p-children buffer loop) -/

/-- A child node of a `p` element under `#acontent` as serialized by the
fetch variant's in-page walk: text nodes, `<br>`, `<img>` (with its raw
`src` and the outcomes the two download strategies would have), and any
other element contributing its `textContent`. -/
inductive PNode where
  | text (nodeValue : String)
  | br
  | img (src : String) (pageFetchRes ctxRes : Option Nat)
  | other (textContent : String)

/-- Accumulator of the buffer loop: chapter lines so far, picture files
written so far, and the in-flight text buffer. -/
structure PAcc where
  lines : List String
  files : List String
  buffer : String

/-- One iteration of the fetch variant's child-node loop. -/
def classifyPStep (purl : String) (now : Nat) (acc : PAcc) (n : PNode) : PAcc :=
  match n with
  | .text s => { acc with buffer := acc.buffer ++ s }
  | .other t => { acc with buffer := acc.buffer ++ t }
  | .br => { acc with lines := acc.lines ++ [acc.buffer], buffer := "" }
  | .img src pf cr =>
    let flushed := if acc.buffer = "" then acc
      else { acc with lines := acc.lines ++ [acc.buffer], buffer := "" }
    if src = "" then flushed
    else
      let imgUrl := resolveUrl purl src
      let filename := imageFilenameFromSrc imgUrl now
      let files := if (fetchImageDownload pf cr).2.isSome
        then flushed.files ++ [filename] else flushed.files
      { flushed with
          lines := flushed.lines ++ ["\x7b\x7b" ++ filename ++ "_" ++ imgUrl ++ "\x7d\x7d"],
          files := files }

/-- The fetch variant's classifier for one `p` element: runs the buffer
loop over its child nodes and flushes a non-empty trailing buffer.
`purl` is the chapter page URL image sources resolve against. -/
def classifyP (purl : String) (now : Nat) (nodes : List PNode) :
    List String × List String :=
  let acc := nodes.foldl (classifyPStep purl now) ⟨[], [], ""⟩
  ((if acc.buffer = "" then acc.lines else acc.lines ++ [acc.buffer]), acc.files)

/-! ### Pagination walkers -/

/-- A chapter page as the scrape variant's per-page loop observes it:
the result of `extractAContent` (`none` when extraction threw) and the
texts of the `#footlink a` elements. -/
structure PageM where
  extract : Option (List String)
  footTexts : List String

/-- The last `#footlink a` text reads exactly the next-page sentinel. -/
def lastFootIsNextPage (p : PageM) : Bool :=
  match p.footTexts.getLast? with
  | some t => jsTrim t == "下一頁"
  | none => false

/-- Scrape variant per-chapter page loop: always processes the current
page (pushing its extraction result, `[]` on error), then follows the
next-page control while its text is the sentinel.  The list argument
holds the successive page states a successful click reaches; the loop is
modelled along that finite chain.  Returns (per-page contents, number of
extraction passes). -/
def walkPages : PageM → List PageM → List (List String) × Nat
  | p, [] => ([p.extract.getD []], 1)
  | p, q :: qs =>
    if lastFootIsNextPage p then
      let r := walkPages q qs
      ((p.extract.getD []) :: r.1, r.2 + 1)
    else ([p.extract.getD []], 1)

/-- A chapter page as the fetch variant's loop observes it: the `p`
elements under `#acontent` (absent container modelled by
`hasAcontent = false`), the `#footlink a` texts, and whether clicking
the next-page link navigates successfully. -/
structure FPage where
  paragraphs : List (List PNode)
  hasAcontent : Bool
  footTexts : List String
  clickOk : Bool

/-- The fetch variant's last-footlink check
(`(el.textContent || "").trim() === "下一頁"`). -/
def lastFootIsNextF (pg : FPage) : Bool :=
  match pg.footTexts.getLast? with
  | some t => jsTrim t == "下一頁"
  | none => false

/-- Lines and picture files one fetch-variant page contributes: the
classifier applied to each `p` under `#acontent`, nothing when the
container is missing. -/
def fetchPageLines (purl : String) (now : Nat) (pg : FPage) :
    List String × List String :=
  if pg.hasAcontent then
    pg.paragraphs.foldl
      (fun acc p =>
        let r := classifyP purl now p
        (acc.1 ++ r.1, acc.2 ++ r.2))
      ([], [])
  else ([], [])

/-- Fetch variant per-chapter page loop: process the current page, then
click the next-page control while its text is the sentinel and the click
navigates; a failed click ends the chapter.  Returns (chapter lines,
number of processed pages). -/
def walkFetchPages (purl : String) (now : Nat) : FPage → List FPage → List String × Nat
  | pg, [] => ((fetchPageLines purl now pg).1, 1)
  | pg, q :: qs =>
    if lastFootIsNextF pg && pg.clickOk then
      let r := walkFetchPages purl now q qs
      ((fetchPageLines purl now pg).1 ++ r.1, r.2 + 1)
    else ((fetchPageLines purl now pg).1, 1)

/-! ### Per-chapter traversal steps and persisted records -/

/-- JavaScript truthiness on an optional href attribute: `null` and the
empty string are falsy. -/
def jsFalsyStr : Option String → Option String
  | none => none
  | some s => if s = "" then none else some s

/-- The record the scrape variant persists:
`{ chapterTitle: chapterTitle || "", contents: pagesContents }`. -/
def buildChapterRecord (chapterTitle : String) (pagesContents : List (List String)) : Json :=
  .obj [("chapterTitle", .str chapterTitle),
        ("contents", .arr (pagesContents.map (fun p => .arr (p.map .str))))]

/-- The record the fetch variant persists: `{ title, lines }`. -/
def buildFetchRecord (title : String) (lines : List String) : Json :=
  .obj [("title", .str title), ("lines", .arr (lines.map .str))]

/-- A chapter `li` as the scrape variant's loop observes it, together
with the environment facts the loop consults: whether `<index>.json`
already exists, the chapter anchor (`none` = no `<a>`, inner option the
`href` attribute), whether `new URL(href, startUrl)` succeeds, whether
the first and the fallback navigation succeed, the `#atitle` text read
(`""` when reading failed), and the chain of pages the pagination loop
visits (first page plus successors). -/
structure ChapterLi where
  fileAlready : Bool
  anchor : Option (Option String)
  resolveOk : Bool
  nav1Ok : Bool
  nav2Ok : Bool
  title : String
  firstPage : PageM
  restPages : List PageM

/-- Outcome of one scrape-variant chapter iteration: the record written
(`none` when the chapter was skipped by `continue`), the number of
`goto` attempts for the chapter page, and the number of extraction
passes. -/
structure ScrapeResult where
  written : Option Json
  navAttempts : Nat
  extractPasses : Nat

/-- One iteration of the scrape variant's chapter loop: resume check
(`fs.access` → `continue`), anchor and href checks (`continue`), URL
resolution (`continue` on throw), navigation with one fallback attempt
(`continue` when both fail), then the page loop and the JSON write. -/
def runChapterScrape (c : ChapterLi) : ScrapeResult :=
  if c.fileAlready then ⟨none, 0, 0⟩
  else
    match c.anchor with
    | none => ⟨none, 0, 0⟩
    | some attr =>
      match jsFalsyStr attr with
      | none => ⟨none, 0, 0⟩
      | some _ =>
        if c.resolveOk then
          if c.nav1Ok then
            let r := walkPages c.firstPage c.restPages
            ⟨some (buildChapterRecord c.title r.1), 1, r.2⟩
          else if c.nav2Ok then
            let r := walkPages c.firstPage c.restPages
            ⟨some (buildChapterRecord c.title r.1), 2, r.2⟩
          else ⟨none, 2, 0⟩
        else ⟨none, 0, 0⟩

/-- A chapter as the fetch variant's loop observes it: the anchor and
href (same encoding as `ChapterLi`), whether navigating to the chapter
page succeeds, the chapter title from the catalog listing, and the page
chain. -/
structure FetchChapterLi where
  anchor : Option (Option String)
  navOk : Bool
  title : String
  firstPage : FPage
  restPages : List FPage

/-- One iteration of the fetch variant's chapter loop.  Every branch
writes a record: a missing anchor or empty href writes
`{ title, lines: [] }`, a failed navigation writes the (still empty)
`chapterObj`, and otherwise the page loop's lines are written. -/
def runChapterFetch (purl : String) (now : Nat) (c : FetchChapterLi) : Json :=
  match c.anchor with
  | none => buildFetchRecord c.title []
  | some attr =>
    match jsFalsyStr attr with
    | none => buildFetchRecord c.title []
    | some _ =>
      if c.navOk then
        buildFetchRecord c.title (walkFetchPages purl now c.firstPage c.restPages).1
      else buildFetchRecord c.title []

/-! ### Catalog-level failure semantics -/

/-- Whether the run survives opening the catalog page. -/
inductive RunOutcome where
  | aborted
  | continued
deriving DecidableEq

/-- Scrape variant: the catalog `page.goto` is wrapped in
`try/catch { console.warn("Initial navigation error (continuing)") }`,
so the run continues whether or not navigation succeeded. -/
def scrapeCatalogGoto (_gotoOk : Bool) : RunOutcome :=
  RunOutcome.continued

/-- Fetch variant: the catalog `page.goto` is not guarded; a rejection
propagates to `main().catch` which calls `process.exit(1)`. -/
def fetchCatalogGoto (gotoOk : Bool) : RunOutcome :=
  if gotoOk then RunOutcome.continued else RunOutcome.aborted

/-- Modelled from the spec's words, for comparison with
`extractImageIdFromSrc`: "the trailing run of digits in the URL's last
path segment, concatenated if multiple groups exist" read as the claim
reads it, the concatenation of ALL digit groups of the last path
segment. -/
def specDigitConcatOfLastSegment (src : String) : String :=
  String.join (digitGroups (lastSegment (urlPathnameWithBase src)))

/-! ### Helper lemmas -/

lemma titleErrs_eq_nil (o : Option Json) : titleErrs o = [] ↔ titleOk o = true := by
  cases o with
  | none => simp [titleErrs, titleOk]
  | some v =>
    cases v with
    | str s => by_cases h : jsTrim s = "" <;> simp [titleErrs, titleOk, h]
    | null => simp [titleErrs, titleOk]
    | bool b => simp [titleErrs, titleOk]
    | num n => simp [titleErrs, titleOk]
    | arr es => simp [titleErrs, titleOk]
    | obj fs => simp [titleErrs, titleOk]

lemma contentErrsFrom_eq_nil (xs : List Json) :
    ∀ i, contentErrsFrom i xs = [] ↔ xs.all isNonemptyArray = true := by
  induction xs with
  | nil => intro i; simp [contentErrsFrom]
  | cons x rest ih =>
    intro i
    cases x with
    | arr es =>
      cases es with
      | nil => simp [contentErrsFrom, isNonemptyArray]
      | cons e es => simp [contentErrsFrom, isNonemptyArray, ih]
    | null => simp [contentErrsFrom, isNonemptyArray]
    | bool b => simp [contentErrsFrom, isNonemptyArray]
    | num n => simp [contentErrsFrom, isNonemptyArray]
    | str s => simp [contentErrsFrom, isNonemptyArray]
    | obj fs => simp [contentErrsFrom, isNonemptyArray]

lemma contentsErrs_eq_nil (o : Option Json) : contentsErrs o = [] ↔ contentsOk o = true := by
  cases o with
  | none => simp [contentsErrs, contentsOk]
  | some v =>
    cases v with
    | arr es =>
      cases es with
      | nil => simp [contentsErrs, contentsOk]
      | cons e es => simpa [contentsErrs, contentsOk] using contentErrsFrom_eq_nil (e :: es) 0
    | null => simp [contentsErrs, contentsOk]
    | bool b => simp [contentsErrs, contentsOk]
    | num n => simp [contentsErrs, contentsOk]
    | str s => simp [contentsErrs, contentsOk]
    | obj fs => simp [contentsErrs, contentsOk]

lemma validateJson_eq_nil_iff (j : Json) :
    validateJson j = [] ↔ satisfiesContract j = true := by
  cases j with
  | obj fields =>
    simp [validateJson, satisfiesContract, List.append_eq_nil,
      titleErrs_eq_nil, contentsErrs_eq_nil, Bool.and_eq_true]
  | null => simp [validateJson, satisfiesContract]
  | bool b => simp [validateJson, satisfiesContract]
  | num n => simp [validateJson, satisfiesContract]
  | str s => simp [validateJson, satisfiesContract]
  | arr es => simp [validateJson, satisfiesContract]

lemma isNonemptyArray_strArr (p : List String) :
    isNonemptyArray (Json.arr (p.map Json.str)) = true ↔ p ≠ [] := by
  cases p <;> simp [isNonemptyArray]

lemma titleOk_str (s : String) : titleOk (some (Json.str s)) = true ↔ jsTrim s ≠ "" := by
  by_cases h : jsTrim s = "" <;> simp [titleOk, h]

lemma contentsOk_arr (l : List Json) :
    contentsOk (some (Json.arr l)) = true ↔ (l ≠ [] ∧ l.all isNonemptyArray = true) := by
  cases l <;> simp [contentsOk]

lemma validateJson_buildChapterRecord (t : String) (pages : List (List String)) :
    validateJson (buildChapterRecord t pages) = [] ↔
      (jsTrim t ≠ "" ∧ pages ≠ [] ∧ ∀ p ∈ pages, p ≠ []) := by
  rw [validateJson_eq_nil_iff]
  have hget1 : jsonGet [("chapterTitle", Json.str t),
      ("contents", Json.arr (pages.map (fun p => Json.arr (p.map Json.str))))] "chapterTitle"
      = some (Json.str t) := by simp [jsonGet]
  have hget2 : jsonGet [("chapterTitle", Json.str t),
      ("contents", Json.arr (pages.map (fun p => Json.arr (p.map Json.str))))] "contents"
      = some (Json.arr (pages.map (fun p => Json.arr (p.map Json.str)))) := by simp [jsonGet]
  simp only [buildChapterRecord, satisfiesContract, hget1, hget2, Bool.and_eq_true,
    titleOk_str, contentsOk_arr, List.all_eq_true]
  constructor
  · rintro ⟨h1, hne, hall⟩
    refine ⟨h1, ?_, ?_⟩
    · intro he; subst he; exact hne rfl
    · intro p hp
      exact (isNonemptyArray_strArr p).mp (hall _ (List.mem_map_of_mem _ hp))
  · rintro ⟨h1, h2, h3⟩
    refine ⟨h1, ?_, ?_⟩
    · intro he; exact h2 (by simpa using he)
    · intro x hx
      rcases List.mem_map.mp hx with ⟨q, hq, rfl⟩
      exact (isNonemptyArray_strArr q).mpr (h3 q hq)

lemma walkPages_ne_nil (p : PageM) (rest : List PageM) : (walkPages p rest).1 ≠ [] := by
  cases rest with
  | nil => simp [walkPages]
  | cons q qs =>
    by_cases h : lastFootIsNextPage p = true <;> simp [walkPages, h]

/-! ### Claim theorems -/

/-- C10: on a page where the `#acontent` container is absent,
`extractAContent` returns the empty token sequence (and writes no
pictures) instead of throwing, for any ambient timestamp. -/
theorem extractAContent_missing_container :
    ∀ now : Nat, extractAContent none now = ([], []) :=
  fun _ => rfl

/-- C4: the validator accepts `{"chapterTitle":"T","contents":[["x"]]}`
with no errors; rejects an empty and a whitespace-only `chapterTitle`
with the empty-title reason, an empty `contents` with the empty-contents
reason, and an empty sub-array with an indexed empty-sub-array reason
(index 0 and index 1 shown); reports one itemized reason per failing
field; and in general returns `[]` exactly when the record satisfies the
contract. -/
theorem validateJson_conformance :
    validateJson (.obj [("chapterTitle", .str "T"), ("contents", .arr [.arr [.str "x"]])]) = []
    ∧ validateJson (.obj [("chapterTitle", .str ""), ("contents", .arr [.arr [.str "x"]])])
      = ["\"chapterTitle\" is empty"]
    ∧ validateJson (.obj [("chapterTitle", .str "  "), ("contents", .arr [.arr [.str "x"]])])
      = ["\"chapterTitle\" is empty"]
    ∧ validateJson (.obj [("chapterTitle", .str "T"), ("contents", .arr [])])
      = ["\"contents\" is an empty array"]
    ∧ validateJson (.obj [("chapterTitle", .str "T"), ("contents", .arr [.arr []])])
      = ["contents[0] is an empty array"]
    ∧ validateJson (.obj [("chapterTitle", .str "T"),
        ("contents", .arr [.arr [.str "x"], .arr []])])
      = ["contents[1] is an empty array"]
    ∧ validateJson (.obj [("chapterTitle", .str ""), ("contents", .arr [])])
      = ["\"chapterTitle\" is empty", "\"contents\" is an empty array"]
    ∧ (∀ j : Json, validateJson j = [] ↔ satisfiesContract j = true) :=
  ⟨by decide, by decide, by decide, by decide, by decide, by decide, by decide,
   validateJson_eq_nil_iff⟩

/-- C1 counterexample: on the synthetic container
`[text "a", br, img(src=".../12.jpg"), text "b"]` the scrape variant's
classifier (`extractAContent`) pushes an empty token for the `<br>`,
yielding four tokens, not the claimed three-token sequence. -/
theorem scrape_classifier_br_emits_empty_token :
    (extractAContent (some [SNode.text "a", SNode.elem "br" false "",
        SNode.img "http://c.com/12.jpg" false false true true, SNode.text "b"]) 0).1
      = ["a", "", "(((12)))", "b"]
    ∧ (extractAContent (some [SNode.text "a", SNode.elem "br" false "",
        SNode.img "http://c.com/12.jpg" false false true true, SNode.text "b"]) 0).1
      ≠ ["a", "(((12)))", "b"] := by
  constructor <;> decide

/-- C1 amended: on a container whose immediate children are
`[text "a", br, img(src="http://c.com/12.jpg"), text "b"]`, the scrape
variant's classifier yields the four tokens
`["a", "", "(((12)))", "b"]` — the line break emits an empty token —
while the fetch variant's buffered paragraph classifier yields exactly
the three tokens `["a", marker("12.jpg", url), "b"]` with no empty
token, for every timestamp, page URL, capture environment and download
outcome. -/
theorem classifier_token_order_amended :
    ∀ (now : Nat) (purl : String) (fe rv so : Bool) (pf cr : Option Nat),
      (extractAContent (some [SNode.text "a", SNode.elem "br" false "",
          SNode.img "http://c.com/12.jpg" false fe rv so, SNode.text "b"]) now).1
        = ["a", "", "(((12)))", "b"]
      ∧ (classifyP purl now [PNode.text "a", PNode.br,
          PNode.img "http://c.com/12.jpg" pf cr, PNode.text "b"]).1
        = ["a", "\x7b\x7b12.jpg_http://c.com/12.jpg\x7d\x7d", "b"] := by
  intro now purl fe rv so pf cr
  have hid : imageIdOf "http://c.com/12.jpg" now = "12" := by
    simp [imageIdOf,
      show extractImageIdFromSrc "http://c.com/12.jpg" = some "12" from by decide]
  have ha : ¬ (jsTrim "a" = "") := by decide
  have hb : ¬ (jsTrim "b" = "") := by decide
  have hres : resolveUrl purl "http://c.com/12.jpg" = "http://c.com/12.jpg" := by
    simp [resolveUrl,
      show (afterScheme ("http://c.com/12.jpg").data).isSome = true from by decide]
  have hfn : imageFilenameFromSrc "http://c.com/12.jpg" now = "12.jpg" := by
    simp [imageFilenameFromSrc,
      show urlPathname "http://c.com/12.jpg" = some "/12.jpg" from by decide,
      show digitGroups "/12.jpg" = ["12"] from by decide,
      show getExtFromUrl "http://c.com/12.jpg" = ".jpg" from by decide]
    decide
  constructor
  · simp [extractAContent, extractAContentStep, hid, ha, hb,
      show jsTrim "a" = "a" from by decide, show jsTrim "b" = "b" from by decide]
  · simp [classifyP, classifyPStep, hres, hfn]

/-- C2 counterexample: for the source URL
`http://example.com/ab12cd34.png`, whose last path segment has the digit
groups `12` and `34`, the scrape variant derives `"34"` (the last
group), not the claimed concatenation `"1234"`; and the fetch variant
derives `"91234"` for `http://example.com/9/ab12cd34.png` (all groups of
the whole path), not `"1234"`. -/
theorem assetId_not_digit_concat_counterexample :
    extractImageIdFromSrc "http://example.com/ab12cd34.png" = some "34"
    ∧ specDigitConcatOfLastSegment "http://example.com/ab12cd34.png" = "1234"
    ∧ extractImageIdFromSrc "http://example.com/ab12cd34.png" ≠ some "1234"
    ∧ imageFilenameFromSrc "http://example.com/9/ab12cd34.png" 0 = "91234.png"
    ∧ imageFilenameFromSrc "http://example.com/9/ab12cd34.png" 0 ≠ "1234.png" := by
  refine ⟨by decide, by decide, by decide, by decide, by decide⟩

/-- C2 amended: the scrape variant's derived asset id is the LAST digit
group of the source URL's last path segment, and the fetch variant's is
the concatenation of ALL digit groups of the whole path; in both
variants the id is independent of the timestamp (hence stable across
runs) whenever digits are present, and the timestamp fallback is used
exactly when the digit extraction yields nothing. -/
theorem assetId_last_digit_group :
    (∀ src : String, src ≠ "" →
        extractImageIdFromSrc src
          = (digitGroups (lastSegment (urlPathnameWithBase src))).getLast?)
    ∧ (∀ (src x : String) (now now2 : Nat), extractImageIdFromSrc src = some x →
        imageIdOf src now = x ∧ imageIdOf src now = imageIdOf src now2)
    ∧ (∀ (src : String) (now : Nat), extractImageIdFromSrc src = none →
        imageIdOf src now = Nat.repr now)
    ∧ (∀ (src p : String) (now now2 : Nat), urlPathname src = some p →
        digitGroups p ≠ [] →
        imageFilenameFromSrc src now = String.join (digitGroups p) ++ getExtFromUrl src
        ∧ imageFilenameFromSrc src now = imageFilenameFromSrc src now2) := by
  refine ⟨?_, ?_, ?_, ?_⟩
  · intro src h; simp [extractImageIdFromSrc, h]
  · intro src x now now2 h; simp [imageIdOf, h]
  · intro src now h; simp [imageIdOf, h]
  · intro src p now now2 hp hd
    cases hgl : digitGroups p with
    | nil => exact absurd hgl hd
    | cons a as => constructor <;> simp [imageFilenameFromSrc, hp, hgl]

/-- C2 witness: the amended statement evaluated at
`http://c.com/a7b8.png` (digit groups `7`, `8`; derived id `"8"`,
independent of the timestamp). -/
theorem assetId_last_digit_group_witness :
    extractImageIdFromSrc "http://c.com/a7b8.png"
        = (digitGroups (lastSegment (urlPathnameWithBase "http://c.com/a7b8.png"))).getLast?
    ∧ imageIdOf "http://c.com/a7b8.png" 1 = "8"
    ∧ imageIdOf "http://c.com/a7b8.png" 1 = imageIdOf "http://c.com/a7b8.png" 2
    ∧ imageFilenameFromSrc "http://c.com/a7b8.png" 1
        = String.join (digitGroups "/a7b8.png") ++ getExtFromUrl "http://c.com/a7b8.png"
    ∧ imageFilenameFromSrc "http://c.com/a7b8.png" 1
        = imageFilenameFromSrc "http://c.com/a7b8.png" 2 := by
  have h := assetId_last_digit_group
  refine ⟨h.1 _ (by decide), (h.2.1 _ "8" 1 2 (by decide)).1,
    (h.2.1 _ "8" 1 2 (by decide)).2,
    (h.2.2.2 _ "/a7b8.png" 1 2 (by decide) (by decide)).1,
    (h.2.2.2 _ "/a7b8.png" 1 2 (by decide) (by decide)).2⟩

/-- C3 counterexample: a chapter whose `#atitle` read failed (title
`""`) and whose single page's extraction threw is written as
`{"chapterTitle":"","contents":[[]]}`, which the validator rejects with
an empty-title and an empty-sub-array reason — the written record
violates the persisted-record contract. -/
theorem written_record_violates_contract :
    (runChapterScrape ⟨false, some (some "h"), true, true, true, "", ⟨none, []⟩, []⟩).written
      = some (buildChapterRecord "" [[]])
    ∧ validateJson (buildChapterRecord "" [[]])
      = ["\"chapterTitle\" is empty", "contents[0] is an empty array"]
    ∧ validateJson (buildChapterRecord "" [[]]) ≠ [] :=
  ⟨rfl, by decide, by decide⟩

lemma validateJson_walkPages_record (t : String) (p : PageM) (rest : List PageM) :
    validateJson (buildChapterRecord t (walkPages p rest).1) = [] ↔
      (jsTrim t ≠ "" ∧ ∀ q ∈ (walkPages p rest).1, q ≠ []) := by
  rw [validateJson_buildChapterRecord]
  constructor
  · rintro ⟨h1, _, h3⟩; exact ⟨h1, h3⟩
  · rintro ⟨h1, h2⟩; exact ⟨h1, walkPages_ne_nil p rest, h2⟩

/-- C3 amended: every record the scrape traversal writes has the shape
`buildChapterRecord title pages` with `contents` non-empty (the page
loop always records at least one page), but it satisfies the
persisted-record validation contract exactly when the chapter title is
non-empty after trimming and every page's token list is non-empty; a
failed title read or a failed page extraction therefore produces a
record the validator rejects. -/
theorem written_record_validation_iff :
    ∀ (c : ChapterLi) (j : Json), (runChapterScrape c).written = some j →
      j = buildChapterRecord c.title (walkPages c.firstPage c.restPages).1
      ∧ (walkPages c.firstPage c.restPages).1 ≠ []
      ∧ (validateJson j = [] ↔
          (jsTrim c.title ≠ "" ∧ ∀ p ∈ (walkPages c.firstPage c.restPages).1, p ≠ [])) := by
  intro c j h
  unfold runChapterScrape at h
  split at h
  · simp at h
  · split at h
    · simp at h
    · split at h
      · simp at h
      · split at h
        · split at h
          · simp only [Option.some.injEq] at h
            subst h
            exact ⟨rfl, walkPages_ne_nil _ _, validateJson_walkPages_record _ _ _⟩
          · split at h
            · simp only [Option.some.injEq] at h
              subst h
              exact ⟨rfl, walkPages_ne_nil _ _, validateJson_walkPages_record _ _ _⟩
            · simp at h
        · simp at h

/-- C3 witness: the amended statement evaluated at a successfully
extracted one-page chapter with title `"T"` and tokens `["x"]`. -/
theorem written_record_validation_iff_witness :
    buildChapterRecord "T" [["x"]]
        = buildChapterRecord "T" (walkPages (⟨some ["x"], []⟩ : PageM) []).1
    ∧ (walkPages (⟨some ["x"], []⟩ : PageM) []).1 ≠ []
    ∧ (validateJson (buildChapterRecord "T" [["x"]]) = [] ↔
        (jsTrim "T" ≠ "" ∧ ∀ p ∈ (walkPages (⟨some ["x"], []⟩ : PageM) []).1, p ≠ [])) :=
  written_record_validation_iff
    ⟨false, some (some "h"), true, true, true, "T", ⟨some ["x"], []⟩, []⟩
    (buildChapterRecord "T" [["x"]]) rfl

/-- C5 counterexample: in the scrape variant, a chapter `li` with no
`<a>` (and likewise one whose anchor has a null or empty `href`) is
`continue`d past with NO record written — the chapter is silently
omitted, not recorded as an empty record. -/
theorem missing_anchor_chapter_skipped_silently :
    (runChapterScrape ⟨false, none, true, true, true, "t", ⟨some ["x"], []⟩, []⟩).written = none
    ∧ (runChapterScrape ⟨false, some none, true, true, true, "t", ⟨some ["x"], []⟩, []⟩).written
      = none
    ∧ (runChapterScrape ⟨false, some (some ""), true, true, true, "t",
        ⟨some ["x"], []⟩, []⟩).written = none :=
  ⟨rfl, rfl, rfl⟩

/-- C5 amended: only the fetch variant records a link-less chapter as an
empty `{title, lines: []}` record and continues; the scrape variant
skips such a chapter entirely, writing nothing. -/
theorem missing_anchor_record_amended :
    (∀ (purl : String) (now : Nat) (c : FetchChapterLi),
        (c.anchor = none ∨ c.anchor = some none ∨ c.anchor = some (some "")) →
        runChapterFetch purl now c = buildFetchRecord c.title [])
    ∧ (∀ c : ChapterLi,
        (c.anchor = none ∨ c.anchor = some none ∨ c.anchor = some (some "")) →
        (runChapterScrape c).written = none) := by
  constructor
  · intro purl now c hc
    rcases hc with h | h | h <;> simp [runChapterFetch, h, jsFalsyStr]
  · intro c hc
    by_cases hf : c.fileAlready = true
    · simp [runChapterScrape, hf]
    · have hff : c.fileAlready = false := by revert hf; cases c.fileAlready <;> simp
      rcases hc with h | h | h <;> simp [runChapterScrape, hff, h, jsFalsyStr]

/-- C5 witness: the amended statement at a concrete anchorless chapter
in each variant. -/
theorem missing_anchor_record_amended_witness :
    runChapterFetch "http://c.com/x" 0 ⟨none, true, "t", ⟨[], true, [], true⟩, []⟩
        = buildFetchRecord "t" []
    ∧ (runChapterScrape ⟨false, none, true, true, true, "t", ⟨some ["x"], []⟩, []⟩).written
        = none :=
  ⟨missing_anchor_record_amended.1 "http://c.com/x" 0
      ⟨none, true, "t", ⟨[], true, [], true⟩, []⟩ (Or.inl rfl),
   missing_anchor_record_amended.2
      ⟨false, none, true, true, true, "t", ⟨some ["x"], []⟩, []⟩ (Or.inl rfl)⟩

/-- C6 counterexample: in the scrape variant a catalog `goto` failure is
caught and the run continues (not fatal), and a chapter whose two
navigation attempts both fail is `continue`d past with NO record
written — contradicting "still recorded with whatever tokens were
gathered". -/
theorem catalog_failure_not_fatal_scrape :
    scrapeCatalogGoto false = RunOutcome.continued
    ∧ (runChapterScrape ⟨false, some (some "h"), true, false, false, "t",
        ⟨some ["x"], []⟩, []⟩).written = none :=
  ⟨rfl, rfl⟩

/-- C6 amended: in the fetch variant a catalog-page failure aborts the
run and a chapter-page load failure still writes that chapter's (empty)
record; in the scrape variant a catalog-page failure is merely logged
and the run continues, and a chapter whose navigation fails on both
attempts is skipped with no persisted record. -/
theorem failure_semantics_amended :
    fetchCatalogGoto false = RunOutcome.aborted
    ∧ fetchCatalogGoto true = RunOutcome.continued
    ∧ (∀ ok : Bool, scrapeCatalogGoto ok = RunOutcome.continued)
    ∧ (∀ (purl : String) (now : Nat) (c : FetchChapterLi) (s : String),
        c.anchor = some (some s) → s ≠ "" → c.navOk = false →
        runChapterFetch purl now c = buildFetchRecord c.title [])
    ∧ (∀ c : ChapterLi, c.nav1Ok = false → c.nav2Ok = false →
        (runChapterScrape c).written = none) := by
  refine ⟨rfl, rfl, fun _ => rfl, ?_, ?_⟩
  · intro purl now c s ha hs hn
    simp [runChapterFetch, ha, jsFalsyStr, hs, hn]
  · intro c h1 h2
    by_cases hf : c.fileAlready = true
    · simp [runChapterScrape, hf]
    · have hff : c.fileAlready = false := by revert hf; cases c.fileAlready <;> simp
      cases hA : c.anchor with
      | none => simp [runChapterScrape, hff, hA]
      | some attr =>
        cases hJ : jsFalsyStr attr with
        | none => simp [runChapterScrape, hff, hA, hJ]
        | some s =>
          by_cases hr : c.resolveOk = true
          · simp [runChapterScrape, hff, hA, hJ, hr, h1, h2]
          · have hrf : c.resolveOk = false := by revert hr; cases c.resolveOk <;> simp
            simp [runChapterScrape, hff, hA, hJ, hrf]

/-- C6 witness: the amended statement at a concrete nav-failing chapter
in each variant. -/
theorem failure_semantics_amended_witness :
    runChapterFetch "u" 0 ⟨some (some "h"), false, "t", ⟨[], true, [], true⟩, []⟩
        = buildFetchRecord "t" []
    ∧ (runChapterScrape ⟨false, some (some "h"), true, false, false, "t",
        ⟨some ["x"], []⟩, []⟩).written = none :=
  ⟨failure_semantics_amended.2.2.2.1 "u" 0
      ⟨some (some "h"), false, "t", ⟨[], true, [], true⟩, []⟩ "h" rfl (by decide) rfl,
   failure_semantics_amended.2.2.2.2
      ⟨false, some (some "h"), true, false, false, "t", ⟨some ["x"], []⟩, []⟩ rfl rfl⟩

/-- C7 counterexample: when every strategy fails, the fetch variant has
attempted `[pageFetch, ctxRequest]` and the scrape variant `[snapshot]`
— no capture path attempts the claimed three-strategy chain
`[snapshot, pageFetch, ctxRequest]`, and the fetch variant never
attempts a snapshot at all. -/
theorem capture_chain_not_three_strategies :
    (fetchImageDownload none none).1 = [Strategy.pageFetch, Strategy.ctxRequest]
    ∧ (fetchImageDownload none none).1
      ≠ [Strategy.snapshot, Strategy.pageFetch, Strategy.ctxRequest]
    ∧ (scrapeImageCapture false true false).1 = [Strategy.snapshot]
    ∧ (scrapeImageCapture false true false).1
      ≠ [Strategy.snapshot, Strategy.pageFetch, Strategy.ctxRequest]
    ∧ Strategy.snapshot ∉ (fetchImageDownload none none).1 :=
  ⟨rfl, by decide, rfl, by decide, by decide⟩

/-- C7 amended: the scrape variant attempts at most the direct element
snapshot; the fetch variant attempts the in-page credentialed fetch and
advances to the out-of-context request exactly when the first throws,
never attempting a snapshot; in both variants, when every attempted
strategy fails the image token with the derived asset id is still
appended to the token stream and no file is written. -/
theorem capture_chain_amended :
    (∀ (b : Nat) (cr : Option Nat),
        fetchImageDownload (some b) cr = ([Strategy.pageFetch], some b))
    ∧ (∀ cr : Option Nat,
        fetchImageDownload none cr = ([Strategy.pageFetch, Strategy.ctxRequest], cr))
    ∧ (∀ fe rv so : Bool, (scrapeImageCapture fe rv so).1 = []
        ∨ (scrapeImageCapture fe rv so).1 = [Strategy.snapshot])
    ∧ (∀ (purl src : String) (now : Nat), src ≠ "" →
        classifyP purl now [PNode.img src none none]
          = (["\x7b\x7b" ++ imageFilenameFromSrc (resolveUrl purl src) now
              ++ "_" ++ resolveUrl purl src ++ "\x7d\x7d"], []))
    ∧ (∀ (src : String) (now : Nat) (fe rv : Bool),
        extractAContent (some [SNode.img src false fe rv false]) now
          = (["(((" ++ imageIdOf src now ++ ")))"], [])) := by
  refine ⟨fun b cr => rfl, ?_, ?_, ?_, ?_⟩
  · intro cr; cases cr <;> rfl
  · intro fe rv so; cases fe <;> cases rv <;> simp [scrapeImageCapture]
  · intro purl src now h
    simp [classifyP, classifyPStep, h, fetchImageDownload]
  · intro src now fe rv
    have hcap : (scrapeImageCapture fe rv false).2 = false := by
      cases fe <;> cases rv <;> rfl
    simp [extractAContent, extractAContentStep, hcap]

/-- C7 witness: the amended statement at a concrete image whose
strategies all fail. -/
theorem capture_chain_amended_witness :
    fetchImageDownload (some 7) none = ([Strategy.pageFetch], some 7)
    ∧ fetchImageDownload none none = ([Strategy.pageFetch, Strategy.ctxRequest], none)
    ∧ ((scrapeImageCapture false true false).1 = []
        ∨ (scrapeImageCapture false true false).1 = [Strategy.snapshot])
    ∧ classifyP "http://c.com/x" 0 [PNode.img "http://c.com/5.png" none none]
        = (["\x7b\x7b"
            ++ imageFilenameFromSrc (resolveUrl "http://c.com/x" "http://c.com/5.png") 0
            ++ "_" ++ resolveUrl "http://c.com/x" "http://c.com/5.png" ++ "\x7d\x7d"], [])
    ∧ extractAContent (some [SNode.img "http://c.com/5.png" false false true false]) 0
        = (["(((" ++ imageIdOf "http://c.com/5.png" 0 ++ ")))"], []) :=
  ⟨capture_chain_amended.1 7 none, capture_chain_amended.2.1 none,
   capture_chain_amended.2.2.1 false true false,
   capture_chain_amended.2.2.2.1 "http://c.com/x" "http://c.com/5.png" 0 (by decide),
   capture_chain_amended.2.2.2.2 "http://c.com/5.png" 0 false true⟩

/-- C8: a chapter whose output file already exists is skipped with zero
navigation attempts and zero extraction passes and nothing written; and
a second pass over any chapter — with the file-existence flag updated by
whatever the first pass wrote — writes nothing, so a re-run against an
unchanged source performs zero additional chapter-record writes. -/
theorem resume_skip_idempotent :
    (∀ c : ChapterLi, c.fileAlready = true → runChapterScrape c = ⟨none, 0, 0⟩)
    ∧ (∀ c : ChapterLi,
        (runChapterScrape { c with
            fileAlready := c.fileAlready || (runChapterScrape c).written.isSome }).written
          = none) := by
  constructor
  · intro c h; simp [runChapterScrape, h]
  · intro c
    by_cases hf : c.fileAlready = true
    · simp [runChapterScrape, hf]
    · have hff : c.fileAlready = false := by revert hf; cases c.fileAlready <;> simp
      cases hw : (runChapterScrape c).written with
      | some j => simp [runChapterScrape, hff, hw]
      | none =>
        have hsame : ({ c with
            fileAlready := c.fileAlready || (none : Option Json).isSome } : ChapterLi)
            = c := by simp
        rw [hsame]
        exact hw

/-- C8 witness: a chapter whose file already exists is skipped with no
work. -/
theorem resume_skip_idempotent_witness :
    runChapterScrape ⟨true, some (some "h"), true, true, true, "t", ⟨some ["x"], []⟩, []⟩
      = ⟨none, 0, 0⟩ :=
  resume_skip_idempotent.1
    ⟨true, some (some "h"), true, true, true, "t", ⟨some ["x"], []⟩, []⟩ rfl

/-- C9: on a 3-page chain whose first two pages' last footer link reads
exactly the next-page sentinel and whose final page's does not, the
scrape variant's pagination loop performs exactly 3 extraction passes,
collecting the three pages' contents in order, and terminates; the fetch
variant's loop likewise processes exactly 3 pages when the first two
clicks navigate successfully. -/
theorem pagination_three_pages (p1 p2 p3 : PageM) (purl : String) (now : Nat)
    (q1 q2 q3 : FPage)
    (h1 : lastFootIsNextPage p1 = true) (h2 : lastFootIsNextPage p2 = true)
    (_h3 : lastFootIsNextPage p3 = false)
    (g1 : lastFootIsNextF q1 = true) (g1c : q1.clickOk = true)
    (g2 : lastFootIsNextF q2 = true) (g2c : q2.clickOk = true)
    (_g3 : lastFootIsNextF q3 = false) :
    (walkPages p1 [p2, p3]).2 = 3
    ∧ (walkPages p1 [p2, p3]).1
      = [p1.extract.getD [], p2.extract.getD [], p3.extract.getD []]
    ∧ (walkFetchPages purl now q1 [q2, q3]).2 = 3 := by
  refine ⟨?_, ?_, ?_⟩ <;>
    simp [walkPages, walkFetchPages, h1, h2, g1, g1c, g2, g2c]

/-- C9 witness: a concrete 3-page chain (pages 1–2 say 下一頁, page 3
says 下一章 resp. 上一頁). -/
theorem pagination_three_pages_witness :
    (walkPages ⟨some ["x"], ["下一頁"]⟩
        [⟨some ["y"], ["下一頁"]⟩, ⟨some ["z"], ["下一章"]⟩]).2 = 3
    ∧ (walkPages ⟨some ["x"], ["下一頁"]⟩
        [⟨some ["y"], ["下一頁"]⟩, ⟨some ["z"], ["下一章"]⟩]).1 = [["x"], ["y"], ["z"]]
    ∧ (walkFetchPages "u" 0 ⟨[], true, ["下一頁"], true⟩
        [⟨[], true, ["下一頁"], true⟩, ⟨[], true, ["上一頁"], true⟩]).2 = 3 :=
  pagination_three_pages ⟨some ["x"], ["下一頁"]⟩ ⟨some ["y"], ["下一頁"]⟩
    ⟨some ["z"], ["下一章"]⟩ "u" 0 ⟨[], true, ["下一頁"], true⟩
    ⟨[], true, ["下一頁"], true⟩ ⟨[], true, ["上一頁"], true⟩
    (by decide) (by decide) (by decide) (by decide) (by decide) (by decide)
    (by decide) (by decide)

end Comics
